import Mathlib

/-!
Verification development for the CargoEscape procedural audio pipeline
(`generate_audio.py` and `generate_music.py`).

Modelling conventions:
* Python floats are embedded as exact rationals `ℚ`; the properties checked
  here (buffer lengths, branch reachability, clamping, quantisation bounds,
  mixing/normalisation structure) are arithmetic-exact and do not depend on
  rounding of the transcendental factors.
* `math.sin`, `math.exp` and `math.pi` are pure external functions/constants;
  they are abstracted into a `PyMath` record passed to each generator, so
  every theorem holds for any interpretation of them.
* The module-global `random` source is modelled as an explicit stream
  `ℕ → ℚ` (call `k` of `random.random()` inside one generator invocation
  reads position `k` of the stream).  Every generator receives the stream;
  tone-only generators never read it, mirroring the Python bodies.
* Python's `int(...)` conversion truncates toward zero; it is embedded as
  `pyInt` below.  Division by zero is a runtime fault in Python; the guarded
  envelope code is additionally embedded in a checked `Option`-valued form
  whose `none` marks a division-by-zero fault.
-/

namespace CargoEscape

/-- Fixed sample rate, `SAMPLE_RATE = 44100` in both source files. -/
def SAMPLE_RATE : ℚ := 44100

/-- Python `int(q)` on a real value: truncation toward zero. -/
def pyInt (q : ℚ) : ℤ := if 0 ≤ q then ⌊q⌋ else ⌈q⌉

/-- Number of loop iterations `range(int(SAMPLE_RATE * duration))` performs:
a negative argument yields an empty range, hence `Int.toNat`. -/
def numSamples (duration : ℚ) : ℕ := (pyInt (SAMPLE_RATE * duration)).toNat

/-- Abstract interpretation of the `math` module: `math.sin`, `math.exp`
and the constant `math.pi`. -/
structure PyMath where
  fsin : ℚ → ℚ
  fexp : ℚ → ℚ
  pi : ℚ

/-- Clamp of one sample before quantisation, `max(-1.0, min(1.0, sample))`
(`generate_audio.py` line 216, `generate_music.py` line 128). -/
def clampSample (sample : ℚ) : ℚ := max (-1) (min 1 sample)

/-- The 16-bit integer written for one sample: `int(sample * 32767)` applied
to the clamped sample (`generate_audio.py` line 217,
`generate_music.py` line 129). -/
def encodeSample (sample : ℚ) : ℤ := pyInt (clampSample sample * 32767)

/-- The sequence of 16-bit integers the PCM body of `save_wav` serialises,
one per input sample, in order. -/
def save_wav (samples : List ℚ) : List ℤ := samples.map encodeSample

/-- Shared fade/attack-release envelope computed inside the per-sample loop of
`generate_sine_wave` (`generate_audio.py` lines 31-36) and `generate_note`
(`generate_music.py` lines 26-31): linear rise over the fade-in window, linear
fall over the fade-out window, 1 in between.  The two comparisons are Python
`int` comparisons, hence over `ℤ`. -/
def fadeEnvelope (num_samples : ℕ) (fade_in_samples fade_out_samples : ℤ) (i : ℕ) : ℚ :=
  if (i : ℤ) < fade_in_samples then (i : ℚ) / (fade_in_samples : ℚ)
  else if (num_samples : ℤ) - fade_out_samples < (i : ℤ) then
    ((num_samples : ℚ) - (i : ℚ)) / (fade_out_samples : ℚ)
  else 1

/-- Fault-checked form of `fadeEnvelope`: `none` exactly when the branch that
is executed divides by zero (a `ZeroDivisionError` in Python). -/
def fadeEnvelopeChecked (num_samples : ℕ) (fade_in_samples fade_out_samples : ℤ)
    (i : ℕ) : Option ℚ :=
  if (i : ℤ) < fade_in_samples then
    if fade_in_samples = 0 then none else some ((i : ℚ) / (fade_in_samples : ℚ))
  else if (num_samples : ℤ) - fade_out_samples < (i : ℤ) then
    if fade_out_samples = 0 then none
    else some (((num_samples : ℚ) - (i : ℚ)) / (fade_out_samples : ℚ))
  else some 1

/-- Sine generator, `generate_audio.py` lines 22-41.  `rng` is the ambient
random stream; the body never reads it, mirroring the source. -/
def generate_sine_wave (M : PyMath) (_rng : ℕ → ℚ)
    (frequency duration volume fade_in fade_out : ℚ) : List ℚ :=
  let num_samples := numSamples duration
  let fade_in_samples := pyInt (SAMPLE_RATE * fade_in)
  let fade_out_samples := pyInt (SAMPLE_RATE * fade_out)
  (List.range num_samples).map fun (i : ℕ) =>
    volume * fadeEnvelope num_samples fade_in_samples fade_out_samples i *
      M.fsin (2 * M.pi * frequency * (i : ℚ) / SAMPLE_RATE)

/-- White-noise generator, `generate_audio.py` lines 44-58; reads one random
draw per sample. -/
def generate_noise (rng : ℕ → ℚ) (duration volume fade_out : ℚ) : List ℚ :=
  let num_samples := numSamples duration
  let fade_out_samples := pyInt (SAMPLE_RATE * fade_out)
  (List.range num_samples).map fun (i : ℕ) =>
    let envelope : ℚ :=
      if (num_samples : ℤ) - fade_out_samples < (i : ℤ) then
        ((num_samples : ℚ) - (i : ℚ)) / (fade_out_samples : ℚ)
      else 1
    volume * envelope * (rng i * 2 - 1)

/-- Frequency sweep, `generate_audio.py` lines 61-73. -/
def generate_sweep (M : PyMath) (_rng : ℕ → ℚ)
    (start_freq end_freq duration volume : ℚ) : List ℚ :=
  let num_samples := numSamples duration
  (List.range num_samples).map fun (i : ℕ) =>
    let t : ℚ := (i : ℚ) / (num_samples : ℚ)
    let freq := start_freq + (end_freq - start_freq) * t
    let envelope := 1 - t * 0.5
    volume * envelope * M.fsin (2 * M.pi * freq * (i : ℚ) / SAMPLE_RATE)

/-- Simple beep, `generate_audio.py` lines 76-78. -/
def generate_beep (M : PyMath) (_rng : ℕ → ℚ) (frequency duration volume : ℚ) : List ℚ :=
  generate_sine_wave M _rng frequency duration volume 0.005 0.02

/-- Explosion effect, `generate_audio.py` lines 81-98; mixes a modulated low
tone with one random draw per sample. -/
def generate_explosion (M : PyMath) (rng : ℕ → ℚ) (duration volume : ℚ) : List ℚ :=
  let num_samples := numSamples duration
  (List.range num_samples).map fun (i : ℕ) =>
    let t : ℚ := (i : ℚ) / (num_samples : ℚ)
    let envelope := M.fexp (-t * 5) * volume
    let low_freq := 50 + 30 * M.fsin (t * 10)
    envelope * (0.5 * M.fsin (2 * M.pi * low_freq * (i : ℚ) / SAMPLE_RATE) +
      0.5 * (rng i * 2 - 1))

/-- Laser effect, `generate_audio.py` lines 101-114. -/
def generate_laser (M : PyMath) (_rng : ℕ → ℚ) (duration volume : ℚ) : List ℚ :=
  let num_samples := numSamples duration
  (List.range num_samples).map fun (i : ℕ) =>
    let t : ℚ := (i : ℚ) / (num_samples : ℚ)
    let freq := 2000 - 1500 * t
    let envelope := (1 - t) * volume
    envelope * M.fsin (2 * M.pi * freq * (i : ℚ) / SAMPLE_RATE)

/-- Door effect, `generate_audio.py` lines 117-135; adds 10% random noise per
sample. -/
def generate_door (M : PyMath) (rng : ℕ → ℚ) (opening : Bool) (duration : ℚ) : List ℚ :=
  let num_samples := numSamples duration
  (List.range num_samples).map fun (i : ℕ) =>
    let t : ℚ := (i : ℚ) / (num_samples : ℚ)
    let freq := if opening then 100 + 200 * t else 300 - 200 * t
    let envelope := 0.4 * (1 - |t - 0.5| * 2)
    let noise := 0.1 * (rng i * 2 - 1)
    envelope * (M.fsin (2 * M.pi * freq * (i : ℚ) / SAMPLE_RATE) + noise)

/-- Loot pickup effect, `generate_audio.py` lines 143-164; `rarity` is a
Python integer. -/
def generate_loot_pickup (M : PyMath) (_rng : ℕ → ℚ) (rarity : ℤ) (duration : ℚ) : List ℚ :=
  let base_freq : ℚ := 400 + (rarity : ℚ) * 100
  let num_samples := numSamples duration
  (List.range num_samples).map fun (i : ℕ) =>
    let t : ℚ := (i : ℚ) / (num_samples : ℚ)
    let freq := base_freq + 200 * t
    let volume := 0.4 * (1 - t * 0.5)
    let s0 := volume * M.fsin (2 * M.pi * freq * (i : ℚ) / SAMPLE_RATE)
    let s1 := if 2 ≤ rarity then
        s0 + 0.2 * volume * M.fsin (2 * M.pi * freq * 1.5 * (i : ℚ) / SAMPLE_RATE)
      else s0
    if 4 ≤ rarity then
      s1 + 0.15 * volume * M.fsin (2 * M.pi * freq * 2 * (i : ℚ) / SAMPLE_RATE)
    else s1

/-- Alert effect, `generate_audio.py` lines 167-181. -/
def generate_alert (M : PyMath) (_rng : ℕ → ℚ) (urgent : Bool) (duration : ℚ) : List ℚ :=
  let num_samples := numSamples duration
  let freq : ℚ := if urgent then 880 else 440
  (List.range num_samples).map fun (i : ℕ) =>
    let t : ℚ := (i : ℚ) / (num_samples : ℚ)
    let pulse := 0.5 + 0.5 * M.fsin (t * 20)
    let volume := 0.5 * pulse * (1 - t * 0.3)
    volume * M.fsin (2 * M.pi * freq * (i : ℚ) / SAMPLE_RATE)

/-- Ambient drone loop, `generate_audio.py` lines 184-201. -/
def generate_ambient_loop (M : PyMath) (_rng : ℕ → ℚ) (duration base_freq : ℚ) : List ℚ :=
  let num_samples := numSamples duration
  (List.range num_samples).map fun (i : ℕ) =>
    let t : ℚ := (i : ℚ) / SAMPLE_RATE
    let s0 := 0.15 * (M.fsin (2 * M.pi * base_freq * t) +
      0.5 * M.fsin (2 * M.pi * (base_freq * 1.5) * t) +
      0.3 * M.fsin (2 * M.pi * (base_freq * 0.5) * t + M.fsin (t * 0.5)))
    s0 + 0.05 * M.fsin (2 * M.pi * 100 * t + M.fsin (t * 2) * 10)

/-- Musical note with attack/release envelope and three harmonics,
`generate_music.py` lines 17-41. -/
def generate_note (M : PyMath) (_rng : ℕ → ℚ)
    (frequency duration volume attack rel : ℚ) : List ℚ :=
  let num_samples := numSamples duration
  let attack_samples := pyInt (SAMPLE_RATE * attack)
  let release_samples := pyInt (SAMPLE_RATE * rel)
  (List.range num_samples).map fun (i : ℕ) =>
    volume * fadeEnvelope num_samples attack_samples release_samples i *
      (0.6 * M.fsin (2 * M.pi * frequency * (i : ℚ) / SAMPLE_RATE) +
       0.25 * M.fsin (2 * M.pi * frequency * 2 * (i : ℚ) / SAMPLE_RATE) +
       0.15 * M.fsin (2 * M.pi * frequency * 3 * (i : ℚ) / SAMPLE_RATE))

/-- Ambient pad, `generate_music.py` lines 44-62. -/
def generate_pad (M : PyMath) (_rng : ℕ → ℚ) (frequency duration volume : ℚ) : List ℚ :=
  let num_samples := numSamples duration
  (List.range num_samples).map fun (i : ℕ) =>
    let t : ℚ := (i : ℚ) / SAMPLE_RATE
    let lfo := 1 + 0.02 * M.fsin (t * 0.5)
    volume * (0.4 * M.fsin (2 * M.pi * frequency * lfo * t) +
      0.3 * M.fsin (2 * M.pi * frequency * 0.5 * t) +
      0.2 * M.fsin (2 * M.pi * frequency * 1.5 * t) +
      0.1 * M.fsin (2 * M.pi * frequency * 2 * t))

/-- Bass, `generate_music.py` lines 65-81. -/
def generate_bass (M : PyMath) (_rng : ℕ → ℚ) (frequency duration volume : ℚ) : List ℚ :=
  let num_samples := numSamples duration
  (List.range num_samples).map fun (i : ℕ) =>
    let t : ℚ := (i : ℚ) / (num_samples : ℚ)
    let envelope := min 1 ((i : ℚ) / (SAMPLE_RATE * 0.02)) * (1 - t * 0.2)
    volume * envelope * (0.7 * M.fsin (2 * M.pi * frequency * (i : ℚ) / SAMPLE_RATE) +
      0.3 * M.fsin (2 * M.pi * frequency * 2 * (i : ℚ) / SAMPLE_RATE))

/-- Arpeggio, `generate_music.py` lines 84-89: concatenation of notes. -/
def generate_arp (M : PyMath) (_rng : ℕ → ℚ) (notes : List ℚ)
    (note_duration volume : ℚ) : List ℚ :=
  notes.flatMap fun freq => generate_note M _rng freq note_duration volume 0.01 0.05

/-- Elementwise sum of the tracks padded with silence to the longest length:
the value of `result` in `mix_tracks` after the accumulation loops
(`generate_music.py` lines 94-99).  Track lengths are naturals, so folding
`max` from 0 equals Python's `max` over the non-empty length list. -/
def mixRaw (tracks : List (List ℚ)) : List ℚ :=
  let max_len := (tracks.map List.length).foldl max 0
  (List.range max_len).map fun (i : ℕ) => (tracks.map fun track => track.getD i 0).sum

/-- Peak `max(abs(s) for s in result) if result else 1.0`
(`generate_music.py` line 102). -/
def peakOf (result : List ℚ) : ℚ :=
  match result.map (fun s => |s|) with
  | [] => 1
  | a :: rest => rest.foldl max a

/-- Mixer, `generate_music.py` lines 92-106.  Python's `max` raises on an
empty argument list, hence `none` there. -/
def mix_tracks (tracks : List (List ℚ)) : Option (List ℚ) :=
  match tracks with
  | [] => none
  | _ :: _ =>
    let result := mixRaw tracks
    let peak := peakOf result
    some (if peak > 0.9 then result.map fun s => s / peak * 0.85 else result)

/-- One fuel-indexed step of the `while len(result) < target_samples` loop of
`loop_to_duration` (`generate_music.py` lines 112-114): extend by the whole
buffer, stop as soon as the length reaches the target, `none` when fuel runs
out (modelling non-termination of the Python loop). -/
def loopWhile (samples : List ℚ) (target : ℕ) : ℕ → List ℚ → Option (List ℚ)
  | 0, acc => if acc.length < target then none else some (acc.take target)
  | fuel + 1, acc =>
    if acc.length < target then loopWhile samples target fuel (acc ++ samples)
    else some (acc.take target)

/-- Loop a buffer to a duration, `generate_music.py` lines 109-115.  The fuel
`target_samples + 1` suffices for any non-empty buffer (each iteration grows
the accumulator by at least one sample), so `none` is returned exactly when
the Python loop never terminates. -/
def loop_to_duration (samples : List ℚ) (duration : ℚ) : Option (List ℚ) :=
  let target_samples := numSamples duration
  loopWhile samples target_samples (target_samples + 1) []

/-- Trivial interpretation of the math module, used to instantiate theorems
at concrete inputs. -/
def M0 : PyMath := ⟨fun _ => 0, fun _ => 0, 0⟩

/-- Interpretation whose exponential is constantly one, used to expose the
random term of the explosion effect. -/
def M1 : PyMath := ⟨fun _ => 0, fun _ => 1, 0⟩

/-- Constant-zero random stream. -/
def rng0 : ℕ → ℚ := fun _ => 0

/-- Constant-one random stream. -/
def rng1 : ℕ → ℚ := fun _ => 1

/-! ### Basic facts about `pyInt` and `numSamples` -/

theorem pyInt_nonpos {q : ℚ} (hq : q ≤ 0) : pyInt q ≤ 0 := by
  unfold pyInt
  split_ifs with h
  · exact le_trans (Int.floor_le_floor hq) (le_of_eq Int.floor_zero)
  · exact Int.ceil_le.mpr (by exact_mod_cast hq)

theorem numSamples_of_nonpos {d : ℚ} (hd : d ≤ 0) : numSamples d = 0 := by
  unfold numSamples
  exact Int.toNat_of_nonpos (pyInt_nonpos (mul_nonpos_of_nonneg_of_nonpos (by norm_num [SAMPLE_RATE]) hd))

theorem numSamples_of_pos {d : ℚ} (hd : 0 < d) :
    (numSamples d : ℤ) = ⌊d * (44100 : ℚ)⌋ := by
  have hq : (0 : ℚ) ≤ SAMPLE_RATE * d := by
    have : (0 : ℚ) < SAMPLE_RATE := by norm_num [SAMPLE_RATE]
    positivity
  unfold numSamples pyInt
  rw [if_pos hq, Int.toNat_of_nonneg (Int.floor_nonneg.mpr hq), mul_comm]
  rfl

/-- Distance between `pyInt q` and `q` is at most one. -/
theorem abs_pyInt_sub_le (q : ℚ) : |((pyInt q : ℚ)) - q| ≤ 1 := by
  unfold pyInt
  split_ifs with h
  · rw [abs_le]
    constructor
    · have := Int.lt_floor_add_one q
      push_cast at this ⊢
      linarith
    · have := Int.floor_le q
      linarith
  · rw [abs_le]
    constructor
    · have := Int.le_ceil q
      linarith
    · have := Int.ceil_lt_add_one q
      push_cast at this ⊢
      linarith

/-- The envelope is identically 1 when both fade windows have zero samples. -/
theorem fadeEnvelope_zero_zero {n i : ℕ} (hi : i < n) : fadeEnvelope n 0 0 i = 1 := by
  simp only [fadeEnvelope]
  rw [if_neg (by omega), if_neg (by omega)]

/-! ### Claim C5: buffer length is floor(duration * 44100) -/

/-- Claim C5: for positive duration, every generator returns exactly
`floor(duration * 44100)` samples (truncation at the fixed 44100 Hz rate). -/
theorem generator_buffer_length (M : PyMath) (g : ℕ → ℚ)
    (freq freq2 vol fi fo bf : ℚ) (r : ℤ) (op ur : Bool) (d : ℚ) (hd : 0 < d) :
    ((generate_sine_wave M g freq d vol fi fo).length : ℤ) = ⌊d * (44100 : ℚ)⌋ ∧
    ((generate_noise g d vol fo).length : ℤ) = ⌊d * (44100 : ℚ)⌋ ∧
    ((generate_sweep M g freq freq2 d vol).length : ℤ) = ⌊d * (44100 : ℚ)⌋ ∧
    ((generate_beep M g freq d vol).length : ℤ) = ⌊d * (44100 : ℚ)⌋ ∧
    ((generate_explosion M g d vol).length : ℤ) = ⌊d * (44100 : ℚ)⌋ ∧
    ((generate_laser M g d vol).length : ℤ) = ⌊d * (44100 : ℚ)⌋ ∧
    ((generate_door M g op d).length : ℤ) = ⌊d * (44100 : ℚ)⌋ ∧
    ((generate_loot_pickup M g r d).length : ℤ) = ⌊d * (44100 : ℚ)⌋ ∧
    ((generate_alert M g ur d).length : ℤ) = ⌊d * (44100 : ℚ)⌋ ∧
    ((generate_ambient_loop M g d bf).length : ℤ) = ⌊d * (44100 : ℚ)⌋ ∧
    ((generate_note M g freq d vol fi fo).length : ℤ) = ⌊d * (44100 : ℚ)⌋ ∧
    ((generate_pad M g freq d vol).length : ℤ) = ⌊d * (44100 : ℚ)⌋ ∧
    ((generate_bass M g freq d vol).length : ℤ) = ⌊d * (44100 : ℚ)⌋ := by
  have h := numSamples_of_pos hd
  refine ⟨?_, ?_, ?_, ?_, ?_, ?_, ?_, ?_, ?_, ?_, ?_, ?_, ?_⟩ <;>
    simp only [generate_sine_wave, generate_noise, generate_sweep, generate_beep,
      generate_explosion, generate_laser, generate_door, generate_loot_pickup,
      generate_alert, generate_ambient_loop, generate_note, generate_pad,
      generate_bass, List.length_map, List.length_range] <;>
    exact h

/-- Witness for claim C5 at duration 1 second. -/
theorem generator_buffer_length_witness :
    ((generate_sine_wave M0 rng0 440 1 (1/2) (1/100) (1/20)).length : ℤ)
      = ⌊(1 : ℚ) * 44100⌋ :=
  (generator_buffer_length M0 rng0 440 660 (1/2) (1/100) (1/20) 60 2 true false 1
    (by norm_num)).1

/-! ### Claim C2: behaviour on non-positive duration -/

/-- Claim C2, counterexample: at duration 0 (and at duration -1) the
generators raise no validation error; they silently return the empty
buffer. -/
theorem duration_nonpos_silently_empty :
    generate_sine_wave M0 rng0 440 0 (1/2) (1/100) (1/20) = [] ∧
    generate_note M0 rng0 440 (-1) (3/10) (1/20) (1/10) = [] := by
  constructor
  · have h : numSamples (0 : ℚ) = 0 := numSamples_of_nonpos le_rfl
    simp [generate_sine_wave, h]
  · have h : numSamples (-1 : ℚ) = 0 := numSamples_of_nonpos (by norm_num)
    simp [generate_note, h]

/-- Claim C2, amended: for every duration ≤ 0 the generators return the
empty buffer without raising; there is no validation error in the code. -/
theorem duration_nonpos_empty (M : PyMath) (g : ℕ → ℚ)
    (freq vol fi fo sf ef : ℚ) (d : ℚ) (hd : d ≤ 0) :
    generate_sine_wave M g freq d vol fi fo = [] ∧
    generate_note M g freq d vol fi fo = [] ∧
    generate_noise g d vol fo = [] ∧
    generate_sweep M g sf ef d vol = [] := by
  have h : numSamples d = 0 := numSamples_of_nonpos hd
  refine ⟨?_, ?_, ?_, ?_⟩ <;>
    simp [generate_sine_wave, generate_note, generate_noise, generate_sweep, h]

/-- Witness for the amended claim C2 at duration 0. -/
theorem duration_nonpos_empty_witness :
    generate_sine_wave M0 rng0 440 0 (1/2) (1/100) (1/20) = [] ∧
    generate_note M0 rng0 440 0 (1/2) (1/100) (1/20) = [] ∧
    generate_noise rng0 0 (1/2) (1/20) = [] ∧
    generate_sweep M0 rng0 300 600 0 (1/2) = [] :=
  duration_nonpos_empty M0 rng0 440 (1/2) (1/100) (1/20) 300 600 0 le_rfl

/-! ### Claim C8: zero-length fade windows -/

/-- Claim C8: for every in-range sample index the envelope computation never
divides by zero (the checked form never faults); when the fade-in count is 0
its division branch is unreachable, likewise for the fade-out count; when
both are 0 the envelope is identically 1, so `generate_sine_wave` and
`generate_note` with zero fade/attack/release reduce to the pure unit-envelope
oscillators. -/
theorem zero_fade_guard :
    (∀ (n : ℕ) (fis fos : ℤ) (i : ℕ), i < n →
      (fadeEnvelopeChecked n fis fos i).isSome = true)
  ∧ (∀ (n : ℕ) (fos : ℤ) (i : ℕ), fadeEnvelope n 0 fos i =
      if (n : ℤ) - fos < (i : ℤ) then ((n : ℚ) - (i : ℚ)) / (fos : ℚ) else 1)
  ∧ (∀ (n : ℕ) (fis : ℤ) (i : ℕ), i < n → fadeEnvelope n fis 0 i =
      if (i : ℤ) < fis then (i : ℚ) / (fis : ℚ) else 1)
  ∧ (∀ (n i : ℕ), i < n → fadeEnvelope n 0 0 i = 1)
  ∧ (∀ (M : PyMath) (g : ℕ → ℚ) (freq d vol : ℚ),
      generate_sine_wave M g freq d vol 0 0 = (List.range (numSamples d)).map
        fun (i : ℕ) => vol * 1 * M.fsin (2 * M.pi * freq * (i : ℚ) / SAMPLE_RATE))
  ∧ (∀ (M : PyMath) (g : ℕ → ℚ) (freq d vol : ℚ),
      generate_note M g freq d vol 0 0 = (List.range (numSamples d)).map
        fun (i : ℕ) => vol * 1 *
          (0.6 * M.fsin (2 * M.pi * freq * (i : ℚ) / SAMPLE_RATE) +
           0.25 * M.fsin (2 * M.pi * freq * 2 * (i : ℚ) / SAMPLE_RATE) +
           0.15 * M.fsin (2 * M.pi * freq * 3 * (i : ℚ) / SAMPLE_RATE))) := by
  have hz : pyInt (SAMPLE_RATE * 0) = 0 := by
    simp [pyInt]
  refine ⟨?_, ?_, ?_, ?_, ?_, ?_⟩
  · intro n fis fos i hi
    simp only [fadeEnvelopeChecked]
    split_ifs with h1 h2 h3 h4
    · exact absurd h1 (by omega)
    · rfl
    · exact absurd h3 (by omega)
    · rfl
    · rfl
  · intro n fos i
    simp only [fadeEnvelope]
    rw [if_neg (by omega)]
  · intro n fis i hi
    simp only [fadeEnvelope]
    by_cases h : (i : ℤ) < fis
    · rw [if_pos h, if_pos h]
    · rw [if_neg h, if_neg h, if_neg (by omega)]
  · intro n i hi
    exact fadeEnvelope_zero_zero hi
  · intro M g freq d vol
    simp only [generate_sine_wave, hz]
    exact List.map_congr_left fun i hi =>
      by rw [fadeEnvelope_zero_zero (List.mem_range.mp hi)]
  · intro M g freq d vol
    simp only [generate_note, hz]
    exact List.map_congr_left fun i hi =>
      by rw [fadeEnvelope_zero_zero (List.mem_range.mp hi)]

/-- Witness for claim C8 at a concrete window. -/
theorem zero_fade_guard_witness :
    (fadeEnvelopeChecked 5 0 0 2).isSome = true ∧ fadeEnvelope 5 0 0 2 = 1 :=
  ⟨zero_fade_guard.1 5 0 0 2 (by norm_num), zero_fade_guard.2.2.2.1 5 2 (by norm_num)⟩

/-! ### Facts about folded maxima and the mixer -/

theorem foldl_max_init_le {α : Type} [LinearOrder α] (xs : List α) (a : α) :
    a ≤ xs.foldl max a := by
  induction xs generalizing a with
  | nil => exact le_refl a
  | cons x xs ih => exact le_trans (le_max_left a x) (ih (max a x))

theorem le_foldl_max_of_mem {α : Type} [LinearOrder α] {n : α} {xs : List α}
    (h : n ∈ xs) (a : α) : n ≤ xs.foldl max a := by
  induction xs generalizing a with
  | nil => cases h
  | cons x xs ih =>
    rcases List.mem_cons.mp h with rfl | hmem
    · exact le_trans (le_max_right a n) (foldl_max_init_le xs (max a n))
    · exact ih hmem (max a x)

theorem foldl_max_mul {c : ℚ} (hc : 0 ≤ c) : ∀ (xs : List ℚ) (a : ℚ),
    (xs.map fun x => x * c).foldl max (a * c) = xs.foldl max a * c := by
  intro xs
  induction xs with
  | nil => intro a; rfl
  | cons x xs ih =>
    intro a
    simp only [List.map_cons, List.foldl_cons]
    rw [← max_mul_of_nonneg _ _ hc]
    exact ih (max a x)

theorem peakOf_cons (x : ℚ) (xs : List ℚ) :
    peakOf (x :: xs) = (xs.map fun s => |s|).foldl max |x| := rfl

theorem peakOf_map_mul {c : ℚ} (hc : 0 ≤ c) (x : ℚ) (xs : List ℚ) :
    peakOf ((x :: xs).map fun s => s * c) = peakOf (x :: xs) * c := by
  have habs : ∀ s : ℚ, |s * c| = |s| * c := fun s => by
    rw [abs_mul, abs_of_nonneg hc]
  have hmaps : (xs.map fun s => |s * c|) = (xs.map fun s => |s|).map (fun y => y * c) := by
    rw [List.map_map]
    exact List.map_congr_left fun s _ => habs s
  simp only [List.map_cons, peakOf_cons, List.map_map, Function.comp]
  rw [habs x]
  rw [show ((fun s => |s|) ∘ fun s : ℚ => s * c) = fun s : ℚ => |s * c| from rfl]
  rw [hmaps, foldl_max_mul hc]

/-- Renormalising a non-empty buffer whose peak exceeds 0.9 by `0.85 / peak`
yields a buffer of peak exactly 0.85. -/
theorem peakOf_scale (l : List ℚ) (hl : l ≠ []) (hp : 0.9 < peakOf l) :
    peakOf (l.map fun s => s / peakOf l * 0.85) = 0.85 := by
  have hp0 : 0 < peakOf l := lt_trans (by norm_num) hp
  have hfun : (fun s : ℚ => s / peakOf l * 0.85) = fun s : ℚ => s * (0.85 / peakOf l) := by
    funext s
    rw [div_mul_eq_mul_div, mul_div_assoc]
  cases l with
  | nil => exact absurd rfl hl
  | cons x xs =>
    rw [hfun, peakOf_map_mul (by positivity) x xs]
    field_simp

/-- A non-empty member track forces a non-empty mixdown. -/
theorem mixRaw_ne_nil {tracks : List (List ℚ)} {t : List ℚ}
    (ht : t ∈ tracks) (htne : t ≠ []) : mixRaw tracks ≠ [] := by
  have h1 : 0 < t.length := List.length_pos.mpr htne
  have h2 : t.length ≤ (tracks.map List.length).foldl max 0 :=
    le_foldl_max_of_mem (List.mem_map_of_mem List.length ht) 0
  simp only [mixRaw]
  intro hcontra
  rw [List.map_eq_nil_iff, List.range_eq_nil] at hcontra
  omega

/-- The elementwise sum of `[[1,1,1],[1,1,1]]` with padding. -/
theorem mixRaw_example : mixRaw [[1, 1, 1], [1, 1, 1]] = [2, 2, 2] := by
  norm_num [mixRaw, Nat.zero_max, max_self, show List.range 3 = [0, 1, 2] from rfl,
    List.getD_cons_zero, List.getD_cons_succ]

/-- The peak of the buffer `[2,2,2]`. -/
theorem peakOf_example : peakOf ([2, 2, 2] : List ℚ) = 2 := by
  have h2 : |(2 : ℚ)| = 2 := abs_of_nonneg (by norm_num)
  simp [peakOf_cons, h2, max_self]

/-! ### Claim C4: mixing and normalisation -/

/-- Claim C4: the mixer produces the padded elementwise sum; if its peak
exceeds 0.9 every sample is rescaled by `0.85/peak` and the resulting peak is
exactly 0.85 (exact in the rational model), otherwise — including a zero
peak — the sum is returned unchanged; and concretely
`mix([1,1,1],[1,1,1]) = [0.85, 0.85, 0.85]`. -/
theorem mix_tracks_normalize :
    (∀ tracks : List (List ℚ), tracks ≠ [] →
      ∃ res, mix_tracks tracks = some res ∧
        (0.9 < peakOf (mixRaw tracks) →
          res = (mixRaw tracks).map (fun s => s / peakOf (mixRaw tracks) * 0.85) ∧
          (mixRaw tracks ≠ [] → peakOf res = 0.85)) ∧
        (¬ 0.9 < peakOf (mixRaw tracks) → res = mixRaw tracks)) ∧
    mix_tracks [[1, 1, 1], [1, 1, 1]] = some [0.85, 0.85, 0.85] := by
  constructor
  · intro tracks hne
    cases tracks with
    | nil => exact absurd rfl hne
    | cons t0 rest =>
      simp only [mix_tracks]
      by_cases hp : peakOf (mixRaw (t0 :: rest)) > 0.9
      · rw [if_pos hp]
        exact ⟨_, rfl, fun _ => ⟨rfl, fun hraw => peakOf_scale _ hraw hp⟩,
          fun hcontra => absurd hp hcontra⟩
      · rw [if_neg hp]
        exact ⟨_, rfl, fun h => absurd h hp, fun _ => rfl⟩
  · simp only [mix_tracks]
    rw [mixRaw_example, peakOf_example, if_pos (by norm_num : (2 : ℚ) > 0.9)]
    norm_num

/-- Witness for claim C4 at the concrete mix of `[1,1,1]` with itself. -/
theorem mix_tracks_normalize_witness :
    ∃ res, mix_tracks [[1, 1, 1], [1, 1, 1]] = some res ∧ peakOf res = 0.85 := by
  obtain ⟨res, h1, h2, _⟩ := mix_tracks_normalize.1 [[1, 1, 1], [1, 1, 1]] (by simp)
  rw [mixRaw_example] at h2
  obtain ⟨_, hp⟩ := h2 (by rw [peakOf_example]; norm_num)
  exact ⟨res, h1, hp (by simp)⟩

/-! ### Claim C7: commutativity of mixing -/

/-- Claim C7: mixing two tracks of possibly different lengths is commutative
(exactly, in the rational model). -/
theorem mix_tracks_comm (A B : List ℚ) : mix_tracks [A, B] = mix_tracks [B, A] := by
  have hlen : (List.map List.length [A, B]).foldl max 0
      = (List.map List.length [B, A]).foldl max 0 := by
    simp only [List.map_cons, List.map_nil, List.foldl_cons, List.foldl_nil, Nat.zero_max]
    exact max_comm _ _
  have hraw : mixRaw [A, B] = mixRaw [B, A] := by
    simp only [mixRaw]
    rw [hlen]
    refine List.map_congr_left fun i _ => ?_
    simp only [List.map_cons, List.map_nil, List.sum_cons, List.sum_nil]
    ring
  simp only [mix_tracks]
  rw [hraw]

/-! ### Claim C10: clip-headroom invariant of the mixer -/

/-- Claim C10: for a non-empty track list containing a non-empty track, the
peak of the mixer output never exceeds 0.9 — the pre-scale peak was either
already at most 0.9 and the sum is returned unchanged, or the output was
normalised to peak 0.85. -/
theorem mix_tracks_peak_bounded (tracks : List (List ℚ)) (h1 : tracks ≠ [])
    (h2 : ∃ t ∈ tracks, t ≠ []) :
    ∃ res, mix_tracks tracks = some res ∧ peakOf res ≤ 0.9 ∧
      (res = mixRaw tracks ∨ peakOf res = 0.85) := by
  obtain ⟨t, ht, htne⟩ := h2
  have hraw_ne : mixRaw tracks ≠ [] := mixRaw_ne_nil ht htne
  cases tracks with
  | nil => exact absurd rfl h1
  | cons t0 rest =>
    simp only [mix_tracks]
    by_cases hp : peakOf (mixRaw (t0 :: rest)) > 0.9
    · rw [if_pos hp]
      have hs := peakOf_scale _ hraw_ne hp
      exact ⟨_, rfl, by rw [hs]; norm_num, Or.inr hs⟩
    · rw [if_neg hp]
      exact ⟨_, rfl, not_lt.mp hp, Or.inl rfl⟩

/-- Witness for claim C10. -/
theorem mix_tracks_peak_bounded_witness :
    ∃ res, mix_tracks [[1, 1, 1], [1, 1, 1]] = some res ∧ peakOf res ≤ 0.9 := by
  obtain ⟨res, ha, hb, _⟩ := mix_tracks_peak_bounded [[1, 1, 1], [1, 1, 1]]
    (by simp) ⟨[1, 1, 1], by simp, by simp⟩
  exact ⟨res, ha, hb⟩

/-! ### Claim C3: loop_to_duration -/

/-- While the accumulator is shorter than the target, each step appends the
whole buffer; with enough fuel the loop returns the accumulated list cut to
the target length, and any appended extension starts with the buffer. -/
theorem loopWhile_spec (samples : List ℚ) (hs : samples ≠ []) (target : ℕ) :
    ∀ (fuel : ℕ) (acc : List ℚ), target ≤ acc.length + fuel →
      ∃ ext : List ℚ, loopWhile samples target fuel acc = some ((acc ++ ext).take target) ∧
        target ≤ acc.length + ext.length ∧
        (ext = [] ∨ ∃ ext2, ext = samples ++ ext2) := by
  intro fuel
  induction fuel with
  | zero =>
    intro acc hle
    refine ⟨[], ?_, by simpa using hle, Or.inl rfl⟩
    simp only [loopWhile]
    rw [if_neg (by omega)]
    simp
  | succ f ih =>
    intro acc hle
    by_cases h : acc.length < target
    · have hlen : 0 < samples.length := List.length_pos.mpr hs
      obtain ⟨ext2, heq, hlen2, _⟩ := ih (acc ++ samples)
        (by simp only [List.length_append]; omega)
      refine ⟨samples ++ ext2, ?_, ?_, Or.inr ⟨ext2, rfl⟩⟩
      · simp only [loopWhile]
        rw [if_pos h, heq, List.append_assoc]
      · simp only [List.length_append] at hlen2 ⊢
        omega
    · refine ⟨[], ?_, by simp; omega, Or.inl rfl⟩
      simp only [loopWhile]
      rw [if_neg h]
      simp

/-- With an empty buffer and a positive target the loop makes no progress:
every fuel bound is exhausted, i.e. the Python `while` loop never
terminates. -/
theorem loopWhile_nil (target : ℕ) (ht : 0 < target) :
    ∀ fuel, loopWhile ([] : List ℚ) target fuel [] = none := by
  intro fuel
  induction fuel with
  | zero =>
    simp only [loopWhile]
    rw [if_pos (by simpa using ht)]
  | succ f ih =>
    simp only [loopWhile]
    rw [if_pos (by simpa using ht)]
    simpa using ih

/-- Claim C3, counterexample: the claim quantifies over every buffer, but at
the empty buffer and the positive duration `1/44100` (target length 1) the
`while` loop of `loop_to_duration` never terminates, so no buffer of
`floor(D * 44100)` samples is returned. -/
theorem loop_to_duration_empty_buffer_diverges :
    (0 : ℚ) < 1/44100 ∧
    ¬ ∃ res : List ℚ, loop_to_duration [] (1/44100) = some res := by
  refine ⟨by norm_num, ?_⟩
  rintro ⟨res, hres⟩
  have hT : numSamples ((1 : ℚ)/44100) = 1 := by
    have h1 : SAMPLE_RATE * ((1 : ℚ)/44100) = 1 := by norm_num [SAMPLE_RATE]
    rw [numSamples, h1, pyInt, if_pos (by norm_num)]
    simp
  simp only [loop_to_duration, hT] at hres
  rw [loopWhile_nil 1 (by norm_num)] at hres
  exact Option.noConfusion hres

/-- Claim C3, amended: restricted to non-empty buffers (for the empty buffer
the loop diverges), `loop_to_duration buf D` with `D > 0` returns exactly
`floor(D * 44100)` samples, and whenever `len(buf)` is at most that target
the first `len(buf)` samples of the result equal `buf` — a plain repeat
followed by truncation, no crossfade. -/
theorem loop_to_duration_spec (buf : List ℚ) (D : ℚ) (hb : buf ≠ []) (hD : 0 < D) :
    ∃ res : List ℚ, loop_to_duration buf D = some res ∧
      (res.length : ℤ) = ⌊D * (44100 : ℚ)⌋ ∧
      ((buf.length : ℤ) ≤ ⌊D * (44100 : ℚ)⌋ → res.take buf.length = buf) := by
  have hns := numSamples_of_pos hD
  obtain ⟨ext, heq, hlen, hshape⟩ :=
    loopWhile_spec buf hb (numSamples D) (numSamples D + 1) [] (by omega)
  simp only [List.nil_append, List.length_nil, Nat.zero_add] at heq hlen
  refine ⟨ext.take (numSamples D), ?_, ?_, ?_⟩
  · simp only [loop_to_duration]
    exact heq
  · rw [List.length_take, min_eq_left hlen]
    exact hns
  · intro hble
    have hbT : buf.length ≤ numSamples D := by
      have h2 : (buf.length : ℤ) ≤ (numSamples D : ℤ) := by rw [hns]; exact hble
      exact_mod_cast h2
    rcases hshape with rfl | ⟨ext2, rfl⟩
    · have h0 : buf.length = 0 := by simp at hlen; omega
      exact absurd (List.length_eq_zero.mp h0) hb
    · rw [List.take_take, min_eq_left hbT, List.take_left]

/-- Witness for the amended claim C3: looping `[0, 1]` to one second. -/
theorem loop_to_duration_spec_witness :
    ∃ res : List ℚ, loop_to_duration [0, 1] 1 = some res ∧
      (res.length : ℤ) = ⌊(1 : ℚ) * 44100⌋ ∧ res.take 2 = [0, 1] := by
  obtain ⟨res, h1, h2, h3⟩ := loop_to_duration_spec [0, 1] 1 (by simp) (by norm_num)
  refine ⟨res, h1, h2, h3 ?_⟩
  have h4 : ⌊(1 : ℚ) * 44100⌋ = 44100 := by norm_num
  rw [h4]
  norm_num

/-! ### Claim C1: quantisation rule of the PCM encoder -/

/-- Claim C1, counterexample: the claim states the encoder writes
`floor(clamp(s) * 32767)` for negative as well as positive samples, but at
the concrete sample `s = -1/2` the code writes `int(-16383.5) = -16383`
(truncation toward zero) while the floor is `-16384`. -/
theorem encodeSample_neg_half_not_floor :
    encodeSample (-(1/2)) = -16383 ∧ ⌊clampSample (-(1/2)) * 32767⌋ = -16384 := by
  have hc : clampSample (-(1/2)) = -(1/2) := by
    unfold clampSample
    rw [min_eq_right (by norm_num), max_eq_right (by norm_num)]
  constructor
  · unfold encodeSample pyInt
    rw [hc, if_neg (by norm_num)]
    rw [show (-(1/2) * 32767 : ℚ) = -16383 - 1/2 by norm_num, Int.ceil_eq_iff]
    constructor <;> norm_num
  · rw [hc, show (-(1/2) * 32767 : ℚ) = -16384 + 1/2 by norm_num, Int.floor_eq_iff]
    constructor <;> norm_num

/-- Claim C1, amended: the encoder clamps to `[-1, 1]` and then truncates
the product with 32767 toward zero: the floor for non-negative samples, the
ceiling for negative samples. -/
theorem encodeSample_trunc_toward_zero (s : ℚ) :
    (0 ≤ s → encodeSample s = ⌊clampSample s * 32767⌋) ∧
    (s < 0 → encodeSample s = ⌈clampSample s * 32767⌉) := by
  constructor
  · intro hs
    have hc : 0 ≤ clampSample s := le_max_of_le_right (le_min (by norm_num) hs)
    unfold encodeSample pyInt
    rw [if_pos (by positivity)]
  · intro hs
    have hc : clampSample s < 0 := by
      unfold clampSample
      rw [min_eq_right (le_of_lt (lt_of_lt_of_le hs (by norm_num)))]
      exact max_lt (by norm_num) hs
    unfold encodeSample pyInt
    rw [if_neg (not_le.mpr (mul_neg_of_neg_of_pos hc (by norm_num)))]

/-- Witness for the amended claim C1 at the concrete samples `1/2`. -/
theorem encodeSample_trunc_toward_zero_witness :
    encodeSample (1/2) = ⌊clampSample (1/2) * 32767⌋ :=
  (encodeSample_trunc_toward_zero (1/2)).1 (by norm_num)

/-! ### Claim C6: round-trip bound of the PCM encoder -/

/-- Claim C6: decoding each encoded 16-bit value back to a float by dividing
by 32767 lands within one quantisation step (`1/32767`) of the clamped
source sample. -/
theorem encodeSample_roundtrip (s : ℚ) :
    |((encodeSample s : ℚ)) / 32767 - clampSample s| ≤ 1 / 32767 := by
  have key := abs_pyInt_sub_le (clampSample s * 32767)
  have h32 : (0 : ℚ) < 32767 := by norm_num
  have hrw : ((encodeSample s : ℚ)) / 32767 - clampSample s
      = (((pyInt (clampSample s * 32767) : ℚ)) - clampSample s * 32767) / 32767 := by
    unfold encodeSample
    field_simp
    ring
  rw [hrw, abs_div, abs_of_pos h32]
  exact (div_le_div_iff_of_pos_right h32).mpr key

/-! ### Claim C9: determinism of tone generators, non-determinism of noise -/

theorem pyInt_mul_zero : pyInt (SAMPLE_RATE * 0) = 0 := by
  simp [pyInt]

theorem numSamples_one_sample : numSamples ((1 : ℚ)/44100) = 1 := by
  have h1 : SAMPLE_RATE * ((1 : ℚ)/44100) = 1 := by norm_num [SAMPLE_RATE]
  rw [numSamples, h1, pyInt, if_pos (by norm_num)]
  simp

theorem numSamples_two_samples : numSamples ((2 : ℚ)/44100) = 2 := by
  have h1 : SAMPLE_RATE * ((2 : ℚ)/44100) = 2 := by norm_num [SAMPLE_RATE]
  rw [numSamples, h1, pyInt, if_pos (by norm_num)]
  rw [show ⌊(2 : ℚ)⌋ = 2 by norm_num]
  rfl

/-- Claim C9: every tone-only generator is a function of its parameters
alone — its output is unchanged under any two states of the ambient random
stream — while each generator that consumes the noise primitive
(`generate_noise`, `generate_explosion`, `generate_door`) produces different
buffers under different random streams, so its output is not reproducible
without seeding. -/
theorem tone_deterministic_noise_not :
    (∀ (M : PyMath) (g₁ g₂ : ℕ → ℚ),
      (∀ f d v a b, generate_sine_wave M g₁ f d v a b = generate_sine_wave M g₂ f d v a b)
      ∧ (∀ sf ef d v, generate_sweep M g₁ sf ef d v = generate_sweep M g₂ sf ef d v)
      ∧ (∀ f d v, generate_beep M g₁ f d v = generate_beep M g₂ f d v)
      ∧ (∀ d v, generate_laser M g₁ d v = generate_laser M g₂ d v)
      ∧ (∀ r d, generate_loot_pickup M g₁ r d = generate_loot_pickup M g₂ r d)
      ∧ (∀ u d, generate_alert M g₁ u d = generate_alert M g₂ u d)
      ∧ (∀ d bf, generate_ambient_loop M g₁ d bf = generate_ambient_loop M g₂ d bf)
      ∧ (∀ f d v a r, generate_note M g₁ f d v a r = generate_note M g₂ f d v a r)
      ∧ (∀ f d v, generate_pad M g₁ f d v = generate_pad M g₂ f d v)
      ∧ (∀ f d v, generate_bass M g₁ f d v = generate_bass M g₂ f d v)
      ∧ (∀ ns nd v, generate_arp M g₁ ns nd v = generate_arp M g₂ ns nd v))
    ∧ (∃ g₁ g₂ : ℕ → ℚ,
        generate_noise g₁ (1/44100) (3/10) 0 ≠ generate_noise g₂ (1/44100) (3/10) 0)
    ∧ (∃ g₁ g₂ : ℕ → ℚ,
        generate_explosion M1 g₁ (1/44100) 1 ≠ generate_explosion M1 g₂ (1/44100) 1)
    ∧ (∃ g₁ g₂ : ℕ → ℚ,
        generate_door M0 g₁ true (2/44100) ≠ generate_door M0 g₂ true (2/44100)) := by
  refine ⟨?_, ?_, ?_, ?_⟩
  · intro M g₁ g₂
    exact ⟨fun _ _ _ _ _ => rfl, fun _ _ _ _ => rfl, fun _ _ _ => rfl,
      fun _ _ => rfl, fun _ _ => rfl, fun _ _ => rfl, fun _ _ => rfl,
      fun _ _ _ _ _ => rfl, fun _ _ _ => rfl, fun _ _ _ => rfl, fun _ _ _ => rfl⟩
  · refine ⟨rng0, rng1, ?_⟩
    intro hcontra
    simp only [generate_noise, numSamples_one_sample, pyInt_mul_zero, show List.range 1 = [0] from rfl,
      List.map_cons, List.map_nil, rng0, rng1] at hcontra
    norm_num at hcontra
  · refine ⟨rng0, rng1, ?_⟩
    intro hcontra
    simp only [generate_explosion, numSamples_one_sample, show List.range 1 = [0] from rfl,
      List.map_cons, List.map_nil, M1, rng0, rng1] at hcontra
    norm_num at hcontra
  · refine ⟨rng0, rng1, ?_⟩
    intro hcontra
    simp only [generate_door, numSamples_two_samples,
      show List.range 2 = [0, 1] from rfl,
      List.map_cons, List.map_nil, M0, rng0, rng1, List.cons.injEq, and_true] at hcontra
    obtain ⟨h0, h1⟩ := hcontra
    norm_num at h1

end CargoEscape
